import Mathlib

/-
Verification of the asx_gym trading environment
(src/asx_gym/envs/asx_gym_env.py) against its specification.

Shallow embedding conventions:
* Python floats are modelled as rationals (ℚ).  Python's builtin `round`
  rounds half to even; `pyRound` reproduces that on ℚ.  The float literal
  `1e-5` is modelled as the rational 1/100000.
* The mutable `AsxGymEnv` object becomes an explicit `EnvState` record;
  each method becomes a pure function from state to state.
* Python dicts keyed by `str(company_id)` become association lists keyed
  by the company id, with insertion-order append and in-place update,
  matching dict semantics.
* External data (the sqlite tables, pandas frames) enters as parameters:
  `EnvConfig.hasIndexData` models which rows of `index_df` exist (a date
  is modelled by its row position), `EnvConfig.generate` models
  `_generate_daily_simulation_price_for_companies` for the step machine
  (its internals are embedded separately for the synthesizer claims).
* Rendering, matplotlib, CSV/JSON logging and the gym space declarations
  are peripheral I/O and are not modelled; the episode history file is
  modelled by the single bit the step function reads and writes
  (`historyFileOpen`, for `self.total_value_history_file`).
-/

/-- Round a rational to the nearest integer, ties to even
(the rounding used by Python's builtin `round`). -/
def pyRoundEven (q : ℚ) : ℤ :=
  if q - ⌊q⌋ < 1/2 then ⌊q⌋
  else if 1/2 < q - ⌊q⌋ then ⌊q⌋ + 1
  else if ⌊q⌋ % 2 = 0 then ⌊q⌋ else ⌊q⌋ + 1

/-- Python's `round(q, n)`: round half to even at `n` decimal places. -/
def pyRound (q : ℚ) (n : ℕ) : ℚ :=
  ((pyRoundEven (q * 10 ^ n) : ℚ)) / 10 ^ n

/-- The `1e-5` negligible-zero tolerance used by `_buy_stock`
(`(volume < 1e-5) and (price > 1e-5)`). -/
def tol : ℚ := 1 / 100000

/-- `StockRecord` from asx_gym/envs/models.py.  The class body is not under
src/, but its shape is fixed by its construction and mutation in
asx_gym_env.py (`StockRecord(company_id, volume, price, 0, price)` and the
field assignments in `_buy_stock` / `_sell_stock`) and by spec section 3
(Holding: company_id, volume, buy_price, sell_price, last price). -/
structure StockRecord where
  company_id : ℕ
  volume : ℚ
  buy_price : ℚ
  sell_price : ℚ
  price : ℚ
deriving DecidableEq, Repr

/-- One entry of `self.daily_simulation_prices`: the current ask/bid/trade
triple published for a company. -/
structure PriceTriple where
  askPrice : ℚ
  bidPrice : ℚ
  price : ℚ
deriving DecidableEq, Repr

/-- The kind of transaction named in a `self.info["transactions"]` record. -/
inductive TxAct where
  | buyAct
  | sellAct
  | holdAct
deriving DecidableEq, Repr

/-- One record written to `self.info["transactions"]` by `_apply_asx_action`. -/
structure InfoRec where
  act : TxAct
  price : ℚ
  volume : ℚ
  fulfilled : Bool
deriving DecidableEq, Repr

/-- One order of the action batch: entry `i` of the parallel arrays
`stock_operation`, `company_id`, `price`, `volume`. -/
structure AsxOrder where
  stockOperation : ℕ
  companyId : ℕ
  price : ℚ
  volume : ℚ
deriving DecidableEq, Repr

/-- An action passed to `step`: the first `company_count` entries of the
parallel arrays, plus the `end_batch` flag. -/
structure AsxAction where
  orders : List AsxOrder
  endBatch : Bool
deriving Repr

/-- `self.np_random`, the per-instance generator produced by
`gym.utils.seeding.np_random(seed)`; only its seeding is relevant here. -/
structure NpRandomState where
  seedValue : ℕ
deriving DecidableEq, Repr

/-- Modelled from the spec: the stock-operation codes live in
asx_gym/envs/constants.py, which is not under src/.  Spec section 4.4 lists
the operations {buy, sell, hold, top-up, withdraw}; only the distinctness
of the four named codes is ever used below. -/
def BUY_STOCK : ℕ := 3

/-- Modelled from the spec: see `BUY_STOCK`. -/
def SELL_STOCK : ℕ := 4

/-- Modelled from the spec: see `BUY_STOCK`. -/
def TOP_UP_FUND : ℕ := 1

/-- Modelled from the spec: see `BUY_STOCK`. -/
def WITHDRAW_FUND : ℕ := 2

/-- Environment construction parameters and external data sources. -/
structure EnvConfig where
  /-- `self.initial_fund`. -/
  initialFund : ℚ
  /-- `self.expected_fund_increase_ratio`. -/
  expectedFundIncrease : ℚ
  /-- `self.expected_fund_decrease_ratio`. -/
  expectedFundDecrease : ℚ
  /-- `self.max_transaction_days`. -/
  maxTransactionDays : ℤ
  /-- `self.min_stock_seq`. -/
  minStockSeq : ℕ
  /-- Whether `index_df` has a row at a given position (`_get_current_display_date`
  returns a date exactly when the one-row slice there is nonempty; the date is
  modelled by the row position). -/
  hasIndexData : ℕ → Bool
  /-- The daily simulation batch produced by
  `_generate_daily_simulation_price_for_companies` for a given date: each
  tracked company id with the price triple its simulation publishes.  The
  generation itself (template lookup and random selection) is embedded
  separately below. -/
  generate : ℕ → List (ℕ × PriceTriple)

/-- The mutable state of `AsxGymEnv` that the core step machine reads and
writes. -/
structure EnvState where
  stepDayCount : ℕ
  stepMinuteCount : ℕ
  stepCount : ℕ
  globalStepCount : ℕ
  needMoveDayForward : Bool
  /-- `self.display_date` (`none` = Python `None`). -/
  displayDate : Option ℕ
  availableFund : ℚ
  bankBalance : ℚ
  /-- `self.portfolios`: dict from company id to StockRecord. -/
  portfolios : List (ℕ × StockRecord)
  totalValue : ℚ
  previousTotalFund : ℚ
  reward : ℚ
  /-- Whether `self.total_value_history_file` is a (truthy) open file. -/
  historyFileOpen : Bool
  /-- `self.daily_simulation_data`: the per-day simulation objects, each
  abstracted to its company id and current price triple. -/
  simBatch : List (ℕ × PriceTriple)
  /-- `self.daily_simulation_prices`: the last published triples. -/
  simPrices : List (ℕ × PriceTriple)
  /-- Ghost counter: number of daily-simulation batch generations performed
  (observes the regeneration in `_move_day_forward`). -/
  genCount : ℕ
  /-- `self.np_random`. -/
  npRandom : NpRandomState
  /-- `self.summaries['transactions']` counters. -/
  buyTotal : ℕ
  buyFulfilled : ℕ
  sellTotal : ℕ
  sellFulfilled : ℕ
deriving DecidableEq, Repr

/-- The ledger/episode state right after `reset()` with initial fund `fund`:
counters zeroed, empty portfolio, `total_value` still 0 (neither `__init__`
nor `reset` assigns it), `previous_total_fund = available_fund`, history
file opened by `_init_episode_storage`. -/
def initState (fund : ℚ) : EnvState where
  stepDayCount := 0
  stepMinuteCount := 0
  stepCount := 0
  globalStepCount := 0
  needMoveDayForward := false
  displayDate := none
  availableFund := fund
  bankBalance := 0
  portfolios := []
  totalValue := 0
  previousTotalFund := fund
  reward := 0
  historyFileOpen := true
  simBatch := []
  simPrices := []
  genCount := 0
  npRandom := ⟨0⟩
  buyTotal := 0
  buyFulfilled := 0
  sellTotal := 0
  sellFulfilled := 0

/-- `self.seed(seed)`: reseed the per-instance generator
(`self.np_random, seed = seeding.np_random(seed)`). -/
def seedEnv (s : EnvState) (sd : ℕ) : EnvState :=
  { s with npRandom := ⟨sd⟩ }

/-- `self.portfolios.get(str(company_id), None)`. -/
def lookupPortfolio (ps : List (ℕ × StockRecord)) (cid : ℕ) : Option StockRecord :=
  (ps.find? fun kv => kv.1 == cid).map Prod.snd

/-- In-place mutation of the dict entry for `cid` (position preserved). -/
def updatePortfolio (ps : List (ℕ × StockRecord)) (cid : ℕ) (r : StockRecord) :
    List (ℕ × StockRecord) :=
  ps.map fun kv => if kv.1 == cid then (cid, r) else kv

/-- Lookup in `self.daily_simulation_prices`. -/
def lookupPrice (ps : List (ℕ × PriceTriple)) (cid : ℕ) : Option PriceTriple :=
  (ps.find? fun kv => kv.1 == cid).map Prod.snd

/-- `d[key] = v` on a dict modelled as an association list. -/
def dictSet (ps : List (ℕ × PriceTriple)) (cid : ℕ) (v : PriceTriple) :
    List (ℕ × PriceTriple) :=
  if ps.any fun kv => kv.1 == cid then
    ps.map fun kv => if kv.1 == cid then (cid, v) else kv
  else ps ++ [(cid, v)]

/-- The buy-all-available-fund volume adjustment in `_buy_stock`:
`volume = round(self.available_fund / price, 0); if self.available_fund <
volume * price: volume -= 1`. -/
def maxBuyVolume (availableFund price : ℚ) : ℚ :=
  let v : ℚ := (pyRoundEven (availableFund / price) : ℚ)
  if availableFund < v * price then v - 1 else v

/-- `_buy_stock` after the volume adjustment: compute
`total_amount = round(volume * price, 3)`, and if affordable create or
update the holding and deduct; always bump the buy counters. -/
def buyStockVol (s : EnvState) (companyId : ℕ) (price volume : ℚ) :
    Bool × EnvState :=
  let totalAmount := pyRound (volume * price) 3
  let res :=
    if s.availableFund ≥ totalAmount then
      let portfolios1 :=
        match lookupPortfolio s.portfolios companyId with
        | none => s.portfolios ++ [(companyId, ⟨companyId, volume, price, 0, price⟩)]
        | some r =>
            updatePortfolio s.portfolios companyId
              { r with volume := r.volume + volume, buy_price := price, price := price }
      (true, { s with portfolios := portfolios1,
                      availableFund := s.availableFund - totalAmount })
    else (false, s)
  (res.1, { res.2 with
              buyTotal := res.2.buyTotal + 1,
              buyFulfilled := if res.1 then res.2.buyFulfilled + 1 else res.2.buyFulfilled })

/-- The volume actually submitted by `_buy_stock`: the requested volume,
replaced by the buy-all adjustment when
`(volume < 1e-5) and (price > 1e-5)`. -/
def adjustedBuyVolume (s : EnvState) (price volume : ℚ) : ℚ :=
  if volume < tol ∧ price > tol then maxBuyVolume s.availableFund price
  else volume

/-- `_buy_stock(company_id, price, volume)`. -/
def buyStock (s : EnvState) (companyId : ℕ) (price volume : ℚ) :
    Bool × EnvState :=
  buyStockVol s companyId price (adjustedBuyVolume s price volume)

/-- `_sell_stock(company_id, price, volume)`. -/
def sellStock (s : EnvState) (companyId : ℕ) (price volume : ℚ) :
    Bool × EnvState :=
  let res :=
    match lookupPortfolio s.portfolios companyId with
    | some r =>
        if r.volume ≥ volume then
          (true, { s with
            portfolios := updatePortfolio s.portfolios companyId
              { r with volume := r.volume - volume, sell_price := price, price := price },
            availableFund := s.availableFund + pyRound (volume * price) 3 })
        else (false, s)
    | none => (false, s)
  (res.1, { res.2 with
              sellTotal := res.2.sellTotal + 1,
              sellFulfilled := if res.1 then res.2.sellFulfilled + 1 else res.2.sellFulfilled })

/-- `_get_current_price_for_company(company_id, price)`. -/
def getCurrentPriceForCompany (s : EnvState) (cid : ℕ) (price : ℚ) : ℚ :=
  match lookupPrice s.simPrices cid with
  | some p => p.price
  | none => price

/-- `_get_total_value()`: cash plus holdings at current prices, rounded to
2 decimals. -/
def getTotalValue (s : EnvState) : ℚ :=
  pyRound
    (s.portfolios.foldl
      (fun acc kv => acc + kv.2.volume * getCurrentPriceForCompany s kv.1 kv.2.price)
      s.availableFund) 2

/-- `_calculate_reward()`: recompute the total value, reward is its change
since the previous step.  (The writes into `index_df`'s Volume/Change
columns feed only the plot and are not modelled.) -/
def calculateReward (s : EnvState) : ℚ × EnvState :=
  let totalFund := getTotalValue s
  let diff := totalFund - s.previousTotalFund
  (diff, { s with totalValue := totalFund, previousTotalFund := totalFund, reward := diff })

/-- `_is_done()`. -/
def isDone (cfg : EnvConfig) (s : EnvState) : Bool :=
  let minLost := pyRound (cfg.initialFund * cfg.expectedFundDecrease) 3
  let maxGain := pyRound (cfg.initialFund * cfg.expectedFundIncrease) 3
  s.displayDate.isNone
    || decide ((s.stepDayCount : ℤ) ≥ cfg.maxTransactionDays - 1)
    || decide (s.totalValue < minLost)
    || decide (s.totalValue > maxGain)

/-- `_apply_asx_action`'s loop body for one order.  The accumulator carries
the environment, the loop-local `fulfilled` variable (initialised to False
before the loop and assigned only by the buy/sell branches), and the
transaction info records in the order they are written (the Python dict
additionally overwrites on duplicate company keys; the company
name/sector metadata looked up from `company_df` is external data and not
modelled). -/
def applyAsxOrder (acc : EnvState × Bool × List (ℕ × InfoRec)) (o : AsxOrder) :
    EnvState × Bool × List (ℕ × InfoRec) :=
  if acc.1.simBatch.any fun kv => kv.1 == o.companyId then
    match lookupPrice acc.1.simPrices o.companyId with
    | some p =>
        if o.stockOperation = BUY_STOCK ∧ o.price ≥ p.askPrice then
          ((buyStock acc.1 o.companyId p.askPrice o.volume).2,
           (buyStock acc.1 o.companyId p.askPrice o.volume).1,
           acc.2.2 ++ [(o.companyId,
             ⟨TxAct.buyAct, p.bidPrice, o.volume,
              (buyStock acc.1 o.companyId p.askPrice o.volume).1⟩)])
        else if o.stockOperation = SELL_STOCK ∧ o.price ≤ p.bidPrice then
          ((sellStock acc.1 o.companyId p.bidPrice o.volume).2,
           (sellStock acc.1 o.companyId p.bidPrice o.volume).1,
           acc.2.2 ++ [(o.companyId,
             ⟨TxAct.sellAct, p.bidPrice, o.volume,
              (sellStock acc.1 o.companyId p.bidPrice o.volume).1⟩)])
        else if o.stockOperation = TOP_UP_FUND then acc
        else if o.stockOperation = WITHDRAW_FUND then acc
        else (acc.1, acc.2.1,
              acc.2.2 ++ [(o.companyId, ⟨TxAct.holdAct, p.price, -1, acc.2.1⟩)])
    | none => acc
  else acc

/-- `_apply_asx_action(action)`: run the batch, return the final
(state, fulfilled, info) and `end_batch`. -/
def applyAsxAction (a : AsxAction) (s : EnvState) :
    (EnvState × Bool × List (ℕ × InfoRec)) × Bool :=
  (a.orders.foldl applyAsxOrder (s, false, []), a.endBatch)

/-- `_get_current_display_date()`: probe `index_df` at
`min_stock_seq + step_day_count` and store the result in
`self.display_date`. -/
def getCurrentDisplayDate (cfg : EnvConfig) (s : EnvState) : EnvState :=
  if cfg.hasIndexData (cfg.minStockSeq + s.stepDayCount) then
    { s with displayDate := some (cfg.minStockSeq + s.stepDayCount) }
  else
    { s with displayDate := none }

/-- `_move_day_forward()`: advance the day, reset the tick, regenerate the
daily simulations for the stored display date (which `step` computed
before calling this, i.e. the pre-rollover date) when it is not None. -/
def moveDayForward (cfg : EnvConfig) (s : EnvState) : EnvState :=
  let s := { s with stepDayCount := s.stepDayCount + 1, stepMinuteCount := 0 }
  let s :=
    match s.displayDate with
    | some d => { s with simBatch := cfg.generate d, genCount := s.genCount + 1 }
    | none => s
  { s with needMoveDayForward := false }

/-- `_get_asx_prices()` as called from `_get_current_obs`: publish each
simulation's current triple into `daily_simulation_prices`.  (The triple
comes from `StockDailySimulationPrices.get_next_prices` in models.py,
outside src/; it is abstracted as the triple stored with the batch.  The
fixed-size `env_prices` arrays only mirror this dict for the observation
space.) -/
def getAsxPrices (s : EnvState) : EnvState :=
  { s with simPrices := s.simBatch.foldl (fun acc kv => dictSet acc kv.1 kv.2) s.simPrices }

/-- The observation record assembled by `_get_current_obs` (the index OHLC
and the fixed-size price/portfolio arrays are external-data projections
for the renderer and are not modelled). -/
structure AsxObs where
  day : ℕ
  second : ℕ
  companyCount : ℕ
  availableFund : ℚ
  totalValue : ℚ
  bankBalance : ℚ
  portfolioCompanyCount : ℕ
deriving DecidableEq, Repr

/-- `_get_current_obs()`. -/
def getCurrentObs (s : EnvState) : AsxObs × EnvState :=
  let s := getAsxPrices s
  (⟨s.stepDayCount, s.stepMinuteCount * 15 * 60 + 10 * 3600, s.simBatch.length,
    s.availableFund, s.totalValue, s.bankBalance, s.portfolios.length⟩, s)

/-- The phase of `step(action)` before the reward: compute the display
date, perform the pending day rollover if scheduled, apply the action
batch.  Returns (state, info, end_batch). -/
def applyPhase (cfg : EnvConfig) (a : AsxAction) (s : EnvState) :
    EnvState × List (ℕ × InfoRec) × Bool :=
  let s := getCurrentDisplayDate cfg s
  let s := if s.needMoveDayForward then moveDayForward cfg s else s
  let r := applyAsxAction a s
  (r.1.1, r.1.2.2, r.2)

/-- `step(action)` up to and including the reward computation and the
`global_step_count` increment, i.e. the state on which `_is_done()` is
evaluated.  Returns (state, reward, info, end_batch). -/
def stepPre (cfg : EnvConfig) (a : AsxAction) (s : EnvState) :
    EnvState × ℚ × List (ℕ × InfoRec) × Bool :=
  let p := applyPhase cfg a s
  let cr := calculateReward p.1
  ({ cr.2 with globalStepCount := cr.2.globalStepCount + 1 }, cr.1, p.2.1, p.2.2)

/-- `step(action)`.  The result is `none` when the Python function falls
off the end and returns a bare `None` (done with the history file already
closed); otherwise `some (observation?, reward, done, info)`. -/
def step (cfg : EnvConfig) (a : AsxAction) (s : EnvState) :
    Option (Option AsxObs × ℚ × Bool × List (ℕ × InfoRec)) × EnvState :=
  let r := stepPre cfg a s
  let s1 := r.1
  if isDone cfg s1 then
    if s1.historyFileOpen then
      (some (none, 0, true, []), { s1 with historyFileOpen := false })
    else
      (none, s1)
  else
    let p := getCurrentObs s1
    let s2 := { p.2 with stepMinuteCount := p.2.stepMinuteCount + 1,
                         stepCount := p.2.stepCount + 1 }
    let s3 := { s2 with needMoveDayForward := decide (s2.stepMinuteCount > 24) || r.2.2.2 }
    (some (some p.1, r.2.1, false, r.2.2.1), s3)

/-- The state after one `step`. -/
def stepState (cfg : EnvConfig) (a : AsxAction) (s : EnvState) : EnvState :=
  (step cfg a s).2

/-- `n` consecutive `step` calls with the same action. -/
def stepN (cfg : EnvConfig) (a : AsxAction) : ℕ → EnvState → EnvState
  | 0, s => s
  | n + 1, s => stepN cfg a n (stepState cfg a s)

/-- A single ledger operation, as dispatched by `_apply_asx_action`. -/
inductive LedgerOp where
  | buyOp (companyId : ℕ) (price volume : ℚ)
  | sellOp (companyId : ℕ) (price volume : ℚ)

/-- Apply one ledger operation. -/
def applyLedgerOp (s : EnvState) : LedgerOp → EnvState
  | .buyOp cid p v => (buyStock s cid p v).2
  | .sellOp cid p v => (sellStock s cid p v).2

/-- Apply a sequence of ledger operations. -/
def applyLedgerOps (s : EnvState) (ops : List LedgerOp) : EnvState :=
  ops.foldl applyLedgerOp s

/-- Non-negative price and volume, as the `spaces.Box(low=0, ...)` action
space enforces. -/
def opNonneg : LedgerOp → Prop
  | .buyOp _ p v => 0 ≤ p ∧ 0 ≤ v
  | .sellOp _ p v => 0 ≤ p ∧ 0 ≤ v

/-- One row of `self.daily_simulation_df` (daily_stock_price.csv), indexed
by source company and template day, with the normalized intraday columns. -/
structure SimRow where
  cid : ℕ
  day : ℕ
  seconds : ℕ
  nAsk : ℚ
  nBid : ℚ
  nPrice : ℚ
  nLow : ℚ
  nHigh : ℚ
deriving DecidableEq, Repr

/-- `AsxGymEnv.normalized_price(high_price, price)`, i.e.
`round(price / high_price, 3)`.  The operands are numpy float64 values
read from pandas, so `high_price == 0` yields a non-finite float (nan for
0/0) rather than raising; the non-finite result is modelled as `none`
(it compares unequal to every stored template ratio). -/
def normalizedPrice (highPrice price : ℚ) : Option ℚ :=
  if highPrice = 0 then none
  else some (pyRound (price / highPrice) 3)

/-- `pandas.Index.unique().to_list()`: distinct values, first occurrence
order. -/
def dedupNat (xs : List ℕ) : List ℕ :=
  xs.foldl (fun acc x => if acc.contains x then acc else acc ++ [x]) []

/-- Swap two positions of a list (out-of-range indices leave it unchanged). -/
def swapAt (xs : List α) (i j : ℕ) : List α :=
  match xs.get? i, xs.get? j with
  | some a, some b => (xs.set i b).set j a
  | _, _ => xs

/-- CPython's `random.shuffle(x)`: Fisher-Yates, for `i` from `len(x)-1`
down to 1 swap `x[i]` with `x[j]`, `j` drawn below `i+1` from the
module-global generator.  The global generator is modelled as a stream
`g : ℕ → ℕ` with a cursor `k0` (each draw consumes one stream value,
reduced mod `i+1`); the pair (shuffled list, advanced cursor) is
returned. -/
def pyShuffle (g : ℕ → ℕ) (k0 : ℕ) (xs : List α) : List α × ℕ :=
  let n := xs.length
  (List.range (n - 1)).foldl
    (fun acc t =>
      let i := n - 1 - t
      let j := g acc.2 % (i + 1)
      (swapAt acc.1 i j, acc.2 + 1))
    (xs, k0)

/-- `StockDailySimulationPrices` from asx_gym/envs/models.py (not under
src/): per spec section 3 it owns the company's OHLC for the day and the
denormalized tick sequence of (ask, bid, trade) triples. -/
structure StockDailySimulationPrices where
  companyId : ℕ
  openPrice : ℚ
  closePrice : ℚ
  highPrice : ℚ
  lowPrice : ℚ
  simPrices : List (ℚ × ℚ × ℚ)
deriving DecidableEq, Repr

/-- Modelled from the spec:
`StockDailySimulationPrices.init_simulation_prices` lives in
asx_gym/envs/models.py, which is not under src/.  Per spec sections 3 and
4.1, each normalized field of each tick is denormalized as
`low + normalized * (high - low)`. -/
def initSimulationPrices (sim : StockDailySimulationPrices)
    (ps : List (ℚ × ℚ × ℚ)) : StockDailySimulationPrices :=
  { sim with
      simPrices := ps.map fun t =>
        (sim.lowPrice + t.1 * (sim.highPrice - sim.lowPrice),
         sim.lowPrice + t.2.1 * (sim.highPrice - sim.lowPrice),
         sim.lowPrice + t.2.2 * (sim.highPrice - sim.lowPrice)) }

/-- Stable insertion into a list sorted by `seconds`. -/
def insertRow (row : SimRow) : List SimRow → List SimRow
  | [] => [row]
  | x :: xs => if row.seconds ≤ x.seconds then row :: x :: xs else x :: insertRow row xs

/-- `sort_values('seconds')`: stable sort by elapsed seconds. -/
def sortRowsBySeconds (rows : List SimRow) : List SimRow :=
  rows.foldr insertRow []

/-- `_generate_daily_simulation_price_for_company(company_id, open_price,
close_price, high_price, low_price)`.  `npRandom` is the instance's
seedable generator `self.np_random` (visible to the method but never
consulted by it); the two `random.shuffle` calls draw from the
module-global generator `g` at cursor `k`.  `table` is
`self.daily_simulation_df`; the ratio-keyed memo cache
(`self.cached_simulation_records`) only avoids refiltering and is omitted
(spec section 4.2: safe to omit for correctness).  Returns the simulation
and the advanced global-generator cursor. -/
def generateDailySimulationPriceForCompany (npRandom : NpRandomState)
    (g : ℕ → ℕ) (k : ℕ) (table : List SimRow) (companyId : ℕ)
    (openPrice closePrice highPrice lowPrice : ℚ) :
    StockDailySimulationPrices × ℕ :=
  let simulations : StockDailySimulationPrices :=
    ⟨companyId, openPrice, closePrice, highPrice, lowPrice, []⟩
  let r0 := normalizedPrice highPrice lowPrice
  let selectedSimulations : List SimRow :=
    match r0 with
    | none => []
    | some rv => table.filter fun row => decide (row.nLow = rv)
  if selectedSimulations.length > 0 then
    let numbers := dedupNat (selectedSimulations.map fun row => row.day)
    let sh1 := pyShuffle g k numbers
    let selectedDay := sh1.1.headD 0
    let selectedSimulations1 := selectedSimulations.filter fun row => row.day == selectedDay
    let companies := dedupNat (selectedSimulations1.map fun row => row.cid)
    let sh2 := pyShuffle g sh1.2 companies
    let selectedCompany := sh2.1.headD 0
    let rows :=
      (sortRowsBySeconds (selectedSimulations1.filter fun row => row.cid == selectedCompany)).take 22
    let prices := rows.map fun row => (row.nAsk, row.nBid, row.nPrice)
    (initSimulationPrices simulations prices, sh2.2)
  else
    (initSimulationPrices simulations [], k)

/-- The loop-carried `fulfilled` update of `_apply_asx_action`: the
variable keeps its value across hold records and is overwritten by each
executed buy/sell with that trade's result (which is what the written
record also carries). -/
def flagStep (acc : Bool) (kv : ℕ × InfoRec) : Bool :=
  match kv.2.act with
  | TxAct.holdAct => acc
  | _ => kv.2.fulfilled

/-- The property claimed of the info transcript: starting from an
accumulator (False at the top of the batch), every `hold` record carries
the accumulator — i.e. the result of the most recent buy/sell record
written before it, or False when none precedes it. -/
def holdFlagsConsistent : Bool → List (ℕ × InfoRec) → Prop
  | _, [] => True
  | acc, kv :: rest =>
      (kv.2.act = TxAct.holdAct → kv.2.fulfilled = acc) ∧
        holdFlagsConsistent (flagStep acc kv) rest

/-- A concrete configuration: the defaults `initial_fund=100000`,
`expected_fund_increase_ratio=2.0`, `expected_fund_decrease_ratio=0.20`,
plenty of index data and transaction days, empty generated batches. -/
def cfgA : EnvConfig where
  initialFund := 100000
  expectedFundIncrease := 2
  expectedFundDecrease := 1/5
  maxTransactionDays := 1000
  minStockSeq := 0
  hasIndexData := fun _ => true
  generate := fun _ => []

/-- `cfgA` with `max_transaction_days = 0`, so `_is_done` is always true. -/
def cfgDone : EnvConfig where
  initialFund := 100000
  expectedFundIncrease := 2
  expectedFundDecrease := 1/5
  maxTransactionDays := 0
  minStockSeq := 0
  hasIndexData := fun _ => true
  generate := fun _ => []

/-- The empty action batch (`company_count = 0`, `end_batch = 0`). -/
def actNil : AsxAction := ⟨[], false⟩

/-- The empty action batch with `end_batch = 1`. -/
def actEnd : AsxAction := ⟨[], true⟩

/-- A fresh post-reset state with the default initial fund. -/
def s100k : EnvState := initState 100000

/-- A state holding one tradable company (id 1) quoted at
ask 50 / bid 49 / trade 49. -/
def sQuoted : EnvState :=
  { s100k with simBatch := [(1, ⟨50, 49, 49⟩)], simPrices := [(1, ⟨50, 49, 49⟩)] }

/-- A fresh state whose episode history file is already closed (as after
a previous terminating step set `total_value_history_file = None`). -/
def sClosed : EnvState := { s100k with historyFileOpen := false }

/-- A state whose recomputed total value sits below the 20% stop-loss
bound of the default configuration. -/
def sLowValue : EnvState := { s100k with totalValue := 19999 }

/-- The template table used for the degenerate-range counterexample: one
template row recorded under ratio bucket 1. -/
def tableFlat : List SimRow := [⟨100, 1, 0, 1, 1, 1, 1, 1⟩]

/-- The template table used for the seeding counterexample: one ratio
bucket (low/high = 0.5) containing template days 1 and 2 of source
company 100, with distinct normalized prices. -/
def tableTwoDays : List SimRow :=
  [⟨100, 1, 0, 1/10, 1/10, 1/10, 1/2, 1⟩,
   ⟨100, 2, 0, 9/10, 9/10, 9/10, 1/2, 1⟩]

/-- A batch with a fulfillable buy (limit 60 against ask 50) followed by a
buy failing the limit-price gate (limit 10 against ask 50), which falls
into the hold branch of `_apply_asx_action`. -/
def batchBuyThenGated : AsxAction :=
  ⟨[⟨BUY_STOCK, 1, 60, 10⟩, ⟨BUY_STOCK, 1, 10, 5⟩], false⟩

/-! Helper lemmas. -/

theorem pyRoundEven_cases (q : ℚ) :
    pyRoundEven q = ⌊q⌋ ∨ (pyRoundEven q = ⌊q⌋ + 1 ∧ (⌊q⌋ : ℚ) < q) := by
  unfold pyRoundEven
  split_ifs with h1 h2 h3
  · exact Or.inl rfl
  · refine Or.inr ⟨rfl, ?_⟩
    have h0 : (0 : ℚ) < q - ⌊q⌋ := lt_trans (by norm_num) h2
    linarith
  · exact Or.inl rfl
  · refine Or.inr ⟨rfl, ?_⟩
    have he : q - ⌊q⌋ = 1/2 := le_antisymm (not_lt.mp h2) (not_lt.mp h1)
    linarith

theorem pyRoundEven_ge_floor (q : ℚ) : ⌊q⌋ ≤ pyRoundEven q := by
  rcases pyRoundEven_cases q with h | ⟨h, _⟩
  · omega
  · omega

theorem pyRound_nonneg (q : ℚ) (n : ℕ) (hq : 0 ≤ q) : 0 ≤ pyRound q n := by
  unfold pyRound
  have hp : (0 : ℚ) < 10 ^ n := by positivity
  have hf : (0 : ℤ) ≤ ⌊q * 10 ^ n⌋ := Int.floor_nonneg.mpr (by positivity)
  have hge : (0 : ℤ) ≤ pyRoundEven (q * 10 ^ n) :=
    le_trans hf (pyRoundEven_ge_floor _)
  have : (0 : ℚ) ≤ (pyRoundEven (q * 10 ^ n) : ℚ) := by exact_mod_cast hge
  positivity

theorem maxBuyVolume_eq_floor (af p : ℚ) (hp : 0 < p) :
    maxBuyVolume af p = (⌊af / p⌋ : ℚ) := by
  unfold maxBuyVolume
  rcases pyRoundEven_cases (af / p) with h | ⟨h, hlt⟩
  · rw [h]
    have hle : (⌊af / p⌋ : ℚ) ≤ af / p := Int.floor_le _
    have : (⌊af / p⌋ : ℚ) * p ≤ af := by
      calc (⌊af / p⌋ : ℚ) * p ≤ (af / p) * p := by
            exact mul_le_mul_of_nonneg_right hle (le_of_lt hp)
        _ = af := div_mul_cancel₀ af (ne_of_gt hp)
    rw [if_neg (not_lt.mpr this)]
  · rw [h]
    have hlt2 : af / p < ((⌊af / p⌋ : ℚ) + 1) := Int.lt_floor_add_one _
    have hlt3 : af < ((⌊af / p⌋ : ℚ) + 1) * p := by
      calc af = (af / p) * p := (div_mul_cancel₀ af (ne_of_gt hp)).symm
        _ < ((⌊af / p⌋ : ℚ) + 1) * p := by exact mul_lt_mul_of_pos_right hlt2 hp
    have hcast : ((⌊af / p⌋ + 1 : ℤ) : ℚ) = (⌊af / p⌋ : ℚ) + 1 := by push_cast; ring
    rw [hcast, if_pos hlt3]
    ring

theorem buyStockVol_fund_nonneg (s : EnvState) (cid : ℕ) (p w : ℚ)
    (h : 0 ≤ s.availableFund) : 0 ≤ (buyStockVol s cid p w).2.availableFund := by
  simp only [buyStockVol, ge_iff_le]
  split_ifs with hc
  · simpa using sub_nonneg.mpr hc
  · simpa using h

theorem buyStock_fund_nonneg (s : EnvState) (cid : ℕ) (p v : ℚ)
    (h : 0 ≤ s.availableFund) : 0 ≤ (buyStock s cid p v).2.availableFund := by
  unfold buyStock
  exact buyStockVol_fund_nonneg _ _ _ _ h

theorem sellStock_fund_ge (s : EnvState) (cid : ℕ) (p v : ℚ)
    (hp : 0 ≤ p) (hv : 0 ≤ v) :
    s.availableFund ≤ (sellStock s cid p v).2.availableFund := by
  have hnn : 0 ≤ pyRound (v * p) 3 := pyRound_nonneg _ _ (mul_nonneg hv hp)
  rcases hr : lookupPortfolio s.portfolios cid with _ | r
  · simp [sellStock, hr]
  · simp only [sellStock, hr]
    split_ifs with hvol
    · simpa using hnn
    · simp

theorem sellStock_fund_nonneg (s : EnvState) (cid : ℕ) (p v : ℚ)
    (hp : 0 ≤ p) (hv : 0 ≤ v) (h : 0 ≤ s.availableFund) :
    0 ≤ (sellStock s cid p v).2.availableFund :=
  le_trans h (sellStock_fund_ge s cid p v hp hv)

theorem lookupPortfolio_update (ps : List (ℕ × StockRecord)) (cid : ℕ)
    (r r₀ : StockRecord) (h : lookupPortfolio ps cid = some r₀) :
    lookupPortfolio (updatePortfolio ps cid r) cid = some r := by
  induction ps with
  | nil => simp [lookupPortfolio] at h
  | cons kv t ih =>
      rcases kv with ⟨k, v⟩
      by_cases hk : k = cid
      · subst hk
        show lookupPortfolio
          ((if (k == k) = true then (k, r) else (k, v)) :: updatePortfolio t k r) k = some r
        rw [if_pos (by simp)]
        unfold lookupPortfolio
        rw [List.find?_cons_of_pos (p := fun kv : ℕ × StockRecord => kv.1 == k) _ (by simp)]
        rfl
      · have hpred : ¬((fun kv : ℕ × StockRecord => kv.1 == cid) (k, v) = true) := by
          simp [hk]
        have h' : lookupPortfolio t cid = some r₀ := by
          unfold lookupPortfolio at h
          rw [List.find?_cons_of_neg (p := fun kv : ℕ × StockRecord => kv.1 == cid) _ hpred] at h
          exact h
        show lookupPortfolio
          ((if (k == cid) = true then (cid, r) else (k, v)) :: updatePortfolio t cid r) cid
            = some r
        rw [if_neg (by simp [hk])]
        unfold lookupPortfolio
        rw [List.find?_cons_of_neg (p := fun kv : ℕ × StockRecord => kv.1 == cid) _ hpred]
        exact ih h'

theorem buyStockVol_spec (s : EnvState) (cid : ℕ) (p w : ℚ) :
    ((buyStockVol s cid p w).1 = true ↔ s.availableFund ≥ pyRound (w * p) 3) ∧
    ((buyStockVol s cid p w).1 = true →
      (buyStockVol s cid p w).2.availableFund = s.availableFund - pyRound (w * p) 3) ∧
    ((buyStockVol s cid p w).1 = false →
      (buyStockVol s cid p w).2.availableFund = s.availableFund) := by
  simp only [buyStockVol, ge_iff_le]
  split_ifs with hc
  · simpa using hc
  · simpa using hc

section ClaimVerification

set_option maxRecDepth 40000

attribute [local semireducible] Rat.mul Rat.add Rat.sub Rat.inv Rat.ofScientific

/-- Claim C1: for every ledger state with non-negative cash and every
sequence of buy and sell orders with non-negative prices and volumes (as
the action space enforces), `available_fund` stays non-negative after
every prefix of the sequence; moreover a buy deducts its rounded total
exactly when `available_fund` covers it (and leaves the fund unchanged
otherwise), and a sell can only increase the cash. -/
theorem c1_available_fund_never_negative :
    (∀ (ops : List LedgerOp) (s : EnvState), 0 ≤ s.availableFund →
      (∀ op ∈ ops, opNonneg op) →
      ∀ n, 0 ≤ (applyLedgerOps s (ops.take n)).availableFund) ∧
    (∀ (s : EnvState) (cid : ℕ) (p v : ℚ),
      ((buyStock s cid p v).1 = true →
        (buyStock s cid p v).2.availableFund
            = s.availableFund - pyRound (adjustedBuyVolume s p v * p) 3 ∧
          pyRound (adjustedBuyVolume s p v * p) 3 ≤ s.availableFund) ∧
      ((buyStock s cid p v).1 = false →
        (buyStock s cid p v).2.availableFund = s.availableFund)) ∧
    (∀ (s : EnvState) (cid : ℕ) (p v : ℚ), 0 ≤ p → 0 ≤ v →
      s.availableFund ≤ (sellStock s cid p v).2.availableFund) := by
  refine ⟨?_, ?_, ?_⟩
  · intro ops
    induction ops with
    | nil =>
        intro s h _ n
        simpa [applyLedgerOps] using h
    | cons op rest ih =>
        intro s h hops n
        cases n with
        | zero => simpa [applyLedgerOps] using h
        | succ m =>
            have hpres : 0 ≤ (applyLedgerOp s op).availableFund := by
              cases op with
              | buyOp cid p v => exact buyStock_fund_nonneg s cid p v h
              | sellOp cid p v =>
                  have hnn := hops _ (List.mem_cons_self _ _)
                  exact sellStock_fund_nonneg s cid p v hnn.1 hnn.2 h
            have hops' : ∀ op' ∈ rest, opNonneg op' :=
              fun o ho => hops o (List.mem_cons_of_mem _ ho)
            simpa [applyLedgerOps] using ih (applyLedgerOp s op) hpres hops' m
  · intro s cid p v
    have hspec := buyStockVol_spec s cid p (adjustedBuyVolume s p v)
    refine ⟨fun hf => ?_, fun hf => ?_⟩
    · exact ⟨hspec.2.1 hf, hspec.1.mp hf⟩
    · exact hspec.2.2 hf
  · intro s cid p v hp hv
    exact sellStock_fund_ge s cid p v hp hv

/-- Witness for C1 at a concrete run: buy 10 at 50 then sell 10 at 55 from
a fund of 100000. -/
theorem c1_available_fund_never_negative_witness :
    0 ≤ (applyLedgerOps (initState 100000)
      ([LedgerOp.buyOp 1 50 10, LedgerOp.sellOp 1 55 10].take 2)).availableFund :=
  c1_available_fund_never_negative.1
    [LedgerOp.buyOp 1 50 10, LedgerOp.sellOp 1 55 10]
    (initState 100000) (by decide)
    (by intro op hop; fin_cases hop <;> exact ⟨by norm_num, by norm_num⟩) 2

/-- Claim C2 is false as stated: the buy-all interpretation requires
`price > 1e-5`, not merely a positive ask price.  With
`available_fund = 100000`, ask price `1/1000000` (positive but not above
the tolerance) and requested volume `0` (within the tolerance), the order
is fulfilled buying 0 shares, while `floor(available_fund/ask_price)`
is `10^11` — and neither `10^11` nor `10^11 - 1` was bought. -/
theorem c2_max_buy_volume_counterexample :
    (0 : ℚ) < 1/1000000 ∧ (0 : ℚ) < tol ∧
    (buyStock s100k 7 (1/1000000) 0).1 = true ∧
    lookupPortfolio (buyStock s100k 7 (1/1000000) 0).2.portfolios 7
      = some ⟨7, 0, 1/1000000, 0, 1/1000000⟩ ∧
    ⌊(100000 : ℚ) / (1/1000000)⌋ = 100000000000 ∧
    (0 : ℚ) ≠ 100000000000 ∧ (0 : ℚ) ≠ 100000000000 - 1 := by
  decide

/-- Claim C2 (amended): whenever a buy order arrives with requested volume
within the 1e-5 tolerance and an ask price strictly above that same
tolerance, the order volume submitted for purchase equals
`floor(available_fund / ask_price)` exactly (the source's
round-to-nearest followed by a decrement when the rounded-up total is
unaffordable always lands on the floor), and the purchase then succeeds
precisely when the 3-decimal-rounded total `round(volume*ask, 3)` is
covered by `available_fund`. -/
theorem c2_max_buy_volume_amended :
    (∀ (s : EnvState) (cid : ℕ) (p v : ℚ), v < tol → tol < p →
      buyStock s cid p v = buyStockVol s cid p ((⌊s.availableFund / p⌋ : ℤ) : ℚ)) ∧
    (∀ af p : ℚ, 0 < p → maxBuyVolume af p = ((⌊af / p⌋ : ℤ) : ℚ)) ∧
    (∀ (s : EnvState) (cid : ℕ) (p w : ℚ),
      (buyStockVol s cid p w).1 = true ↔ s.availableFund ≥ pyRound (w * p) 3) := by
  refine ⟨?_, ?_, ?_⟩
  · intro s cid p v hv hp
    have hp0 : (0 : ℚ) < p := lt_trans (by norm_num [tol]) hp
    unfold buyStock adjustedBuyVolume
    rw [if_pos ⟨hv, hp⟩, maxBuyVolume_eq_floor _ _ hp0]
  · intro af p hp
    exact maxBuyVolume_eq_floor af p hp
  · intro s cid p w
    exact (buyStockVol_spec s cid p w).1

/-- Witness for the amended C2: a buy-all order (volume 0) at ask 50 from
a fund of 100000 submits exactly `floor(100000/50) = 2000` shares. -/
theorem c2_max_buy_volume_amended_witness :
    buyStock s100k 1 50 0 = buyStockVol s100k 1 50 ((⌊s100k.availableFund / 50⌋ : ℤ) : ℚ) :=
  c2_max_buy_volume_amended.1 s100k 1 50 0 (by decide) (by decide)

/-- Claim C3: the done flag a step reports is `_is_done` evaluated on the
state produced by that step's reward computation (and a bare-`None`
return also only happens when that check is true); the post-reward state
carries this step's freshly recomputed `total_value`; `_is_done` is true
exactly when the display date is `None`, or the day count reaches
`max_transaction_days - 1`, or `total_value` falls below
`round(initial_fund * decrease_ratio, 3)` or rises above
`round(initial_fund * increase_ratio, 3)`; and with
`initial_fund = 100000`, `decrease_ratio = 0.20`, any state whose
`total_value` is below 20000 is done regardless of the day count. -/
theorem c3_termination_after_reward :
    (∀ (cfg : EnvConfig) (a : AsxAction) (s : EnvState),
      (∀ r, (step cfg a s).1 = some r → r.2.2.1 = isDone cfg (stepPre cfg a s).1) ∧
      ((step cfg a s).1 = none → isDone cfg (stepPre cfg a s).1 = true)) ∧
    (∀ (cfg : EnvConfig) (a : AsxAction) (s : EnvState),
      (stepPre cfg a s).1.totalValue = getTotalValue (applyPhase cfg a s).1) ∧
    (∀ (cfg : EnvConfig) (s : EnvState),
      isDone cfg s = true ↔
        (s.displayDate = none ∨ (s.stepDayCount : ℤ) ≥ cfg.maxTransactionDays - 1 ∨
          s.totalValue < pyRound (cfg.initialFund * cfg.expectedFundDecrease) 3 ∨
          s.totalValue > pyRound (cfg.initialFund * cfg.expectedFundIncrease) 3)) ∧
    (∀ (cfg : EnvConfig) (s : EnvState), cfg.initialFund = 100000 →
      cfg.expectedFundDecrease = 1/5 → s.totalValue < 20000 → isDone cfg s = true) := by
  refine ⟨?_, ?_, ?_, ?_⟩
  · intro cfg a s
    cases hd : isDone cfg (stepPre cfg a s).1 with
    | false =>
        constructor
        · intro r hr
          simp only [step, hd, Bool.false_eq_true, if_false] at hr
          injection hr with h
          subst h
          simp [hd]
        · intro hr
          simp only [step, hd, Bool.false_eq_true, if_false] at hr
          exact Option.noConfusion hr
      | true =>
        cases hf : (stepPre cfg a s).1.historyFileOpen with
        | false =>
            constructor
            · intro r hr
              simp only [step, hd, hf, Bool.false_eq_true, if_true, if_false] at hr
              exact Option.noConfusion hr
            · intro _
              rfl
        | true =>
            constructor
            · intro r hr
              simp only [step, hd, hf, if_true] at hr
              injection hr with h
              subst h
              simp [hd]
            · intro hr
              simp only [step, hd, hf, if_true] at hr
              rfl
  · intro cfg a s
    rfl
  · intro cfg s
    simp only [isDone, Bool.or_eq_true, decide_eq_true_eq, Option.isNone_iff_eq_none,
      ge_iff_le, gt_iff_lt]
    tauto
  · intro cfg s h1 h2 h3
    have hml : pyRound (cfg.initialFund * cfg.expectedFundDecrease) 3 = 20000 := by
      rw [h1, h2]; decide
    simp [isDone, hml, h3]

/-- Witness for C3: a state with total value 19999 is done under the
default configuration, and a terminating step's bare-`None` return indeed
implies the done check held. -/
theorem c3_termination_after_reward_witness :
    isDone cfgA sLowValue = true ∧
    isDone cfgDone (stepPre cfgDone actNil sClosed).1 = true :=
  ⟨c3_termination_after_reward.2.2.2 cfgA sLowValue rfl rfl (by decide),
   (c3_termination_after_reward.1 cfgDone actNil sClosed).2 (by decide)⟩

/-- Claim C4 is false as stated: starting from a fresh day (tick 0),
stepping 24 times without `end_batch` schedules no rollover at all
(`need_move_day_forward` requires the tick count to exceed 24), and even
after the 25th step the day index is still 0, the tick counter is 25
(not reset to 0) and no simulation batch has been regenerated. -/
theorem c4_day_rollover_counterexample :
    (stepN cfgA actNil 24 s100k).needMoveDayForward = false ∧
    (stepN cfgA actNil 25 s100k).stepDayCount = 0 ∧
    (stepN cfgA actNil 25 s100k).stepMinuteCount = 25 ∧
    (stepN cfgA actNil 25 s100k).genCount = 0 := by
  decide

/-- Claim C4 (amended): `_move_day_forward` increments the day index,
resets the tick counter to 0 and (when a display date is present)
regenerates the daily simulation batch; but it runs one step later than
claimed: the rollover flag is first set by the step that raises the tick
counter above 24 — the 25th step of a fresh day — or by a step whose
action carries `end_batch`, and the rollover itself is performed at the
start of the following step, so from a fresh day the 26th step (or the
step after an `end_batch` step) lands on day 1 with a fresh batch and a
tick counter that was reset to 0 and then advanced to 1. -/
theorem c4_day_rollover_amended :
    (∀ (cfg : EnvConfig) (s : EnvState),
      (moveDayForward cfg s).stepDayCount = s.stepDayCount + 1 ∧
      (moveDayForward cfg s).stepMinuteCount = 0 ∧
      (moveDayForward cfg s).needMoveDayForward = false ∧
      (moveDayForward cfg s).genCount
        = (if s.displayDate.isSome then s.genCount + 1 else s.genCount)) ∧
    ((stepN cfgA actNil 24 s100k).stepMinuteCount = 24 ∧
      (stepN cfgA actNil 24 s100k).needMoveDayForward = false ∧
      (stepN cfgA actNil 25 s100k).needMoveDayForward = true ∧
      (stepN cfgA actNil 25 s100k).stepDayCount = 0 ∧
      (stepN cfgA actNil 26 s100k).stepDayCount = 1 ∧
      (stepN cfgA actNil 26 s100k).genCount = 1 ∧
      (stepN cfgA actNil 26 s100k).stepMinuteCount = 1) ∧
    ((stepState cfgA actEnd s100k).needMoveDayForward = true ∧
      (stepState cfgA actEnd s100k).stepDayCount = 0 ∧
      (stepState cfgA actNil (stepState cfgA actEnd s100k)).stepDayCount = 1 ∧
      (stepState cfgA actNil (stepState cfgA actEnd s100k)).genCount = 1 ∧
      (stepState cfgA actNil (stepState cfgA actEnd s100k)).stepMinuteCount = 1) := by
  refine ⟨?_, by decide, by decide⟩
  intro cfg s
  cases hdd : s.displayDate with
  | none => simp [moveDayForward, hdd]
  | some d => simp [moveDayForward, hdd]

/-- Claim C5 is false as stated: with `high == low == 0` (open 5) the
ratio `round(low/high, 3)` is non-finite (numpy float division, modelled
as `none`), it matches no template bucket even in a nonempty template
table, and the company's simulation comes back with an empty tick list —
not a flat 22-tick path at the open price. -/
theorem c5_degenerate_range_counterexample :
    normalizedPrice 0 0 = none ∧
    (generateDailySimulationPriceForCompany ⟨42⟩ (fun _ => 0) 0 tableFlat
        7 5 5 0 0).1.simPrices = [] ∧
    (generateDailySimulationPriceForCompany ⟨42⟩ (fun _ => 0) 0 tableFlat
        7 5 5 0 0).1.simPrices ≠ List.replicate 22 ((5 : ℚ), (5 : ℚ), (5 : ℚ)) := by
  decide

/-- Claim C5 (amended): synthesizing a day whose `high` is 0 (in
particular `high == low == 0`) does not raise — the operands are numpy
floats, so `round(low/high, 3)` is a non-finite value, not a
`ZeroDivisionError` — but there is no flat-price fallback: the non-finite
ratio selects no template, the simulation is created with an empty tick
list (consuming no randomness), and the company is left without tradable
prices for that day. -/
theorem c5_degenerate_range_amended :
    ∀ (npR : NpRandomState) (g : ℕ → ℕ) (k : ℕ) (table : List SimRow)
      (cid : ℕ) (o c l : ℚ),
      normalizedPrice 0 l = none ∧
      (generateDailySimulationPriceForCompany npR g k table cid o c 0 l).1.simPrices = [] ∧
      (generateDailySimulationPriceForCompany npR g k table cid o c 0 l).2 = k := by
  intro npR g k table cid o c l
  refine ⟨by simp [normalizedPrice], ?_, ?_⟩
  · simp [generateDailySimulationPriceForCompany, normalizedPrice, initSimulationPrices]
  · simp [generateDailySimulationPriceForCompany, normalizedPrice]

/-- Claim C6 is false as stated: two runs of the daily-simulation
generation with the same seed (42) applied through `seed()`, the same
template table and the same OHLC input select different template days —
and hence produce different tick sequences — whenever the ambient state
of the module-global `random` generator differs between the runs, because
the day/company shuffles draw from `random.shuffle`, not from the seeded
per-instance `np_random`. -/
theorem c6_seed_determinism_counterexample :
    (generateDailySimulationPriceForCompany (seedEnv s100k 42).npRandom
        (fun _ => 0) 0 tableTwoDays 7 10 10 20 10).1.simPrices
      = [((19 : ℚ), (19 : ℚ), (19 : ℚ))] ∧
    (generateDailySimulationPriceForCompany (seedEnv s100k 42).npRandom
        (fun _ => 1) 0 tableTwoDays 7 10 10 20 10).1.simPrices
      = [((11 : ℚ), (11 : ℚ), (11 : ℚ))] ∧
    (generateDailySimulationPriceForCompany (seedEnv s100k 42).npRandom
        (fun _ => 0) 0 tableTwoDays 7 10 10 20 10).1.simPrices
      ≠ (generateDailySimulationPriceForCompany (seedEnv s100k 42).npRandom
        (fun _ => 1) 0 tableTwoDays 7 10 10 20 10).1.simPrices := by
  decide

/-- Claim C6 (amended): the template/day/company randomization of the
daily-simulation generation is drawn from the process-global `random`
module generator, not from the per-instance seedable `np_random` that
`seed()` controls: reseeding the environment with any seed whatsoever
leaves the generation's outcome unchanged (it is a function of the global
generator's stream alone), so `seed()` does not make the selection
sequence reproducible. -/
theorem c6_seed_determinism_amended :
    ∀ (s : EnvState) (sd : ℕ) (g : ℕ → ℕ) (k : ℕ) (table : List SimRow)
      (cid : ℕ) (o c h l : ℚ),
      generateDailySimulationPriceForCompany (seedEnv s sd).npRandom g k table cid o c h l
        = generateDailySimulationPriceForCompany s.npRandom g k table cid o c h l :=
  fun _ _ _ _ _ _ _ _ _ _ => rfl

/-- Claim C7 is false as stated: in a terminating state whose history
file is no longer open (e.g. any step taken after the episode already
terminated once), `step` does not return the sentinel
`(None, 0, True, {})` — the Python function falls off the end of both
branches and returns a bare `None`. -/
theorem c7_sentinel_counterexample :
    isDone cfgDone (stepPre cfgDone actNil sClosed).1 = true ∧
    (step cfgDone actNil sClosed).1 = none ∧
    (step cfgDone actNil sClosed).1 ≠ some (none, 0, true, []) :=
  ⟨by decide, by decide, by decide⟩

/-- Claim C7 (amended): on every step whose done check holds while the
episode's history file is still open — the normal case for the first
terminating step after `reset()` — `step` returns the sentinel result
(observation `None`, reward 0, done `True`, empty info) and closes the
file; a terminating step taken with the file already closed instead
returns nothing at all. -/
theorem c7_sentinel_amended :
    ∀ (cfg : EnvConfig) (a : AsxAction) (s : EnvState),
      isDone cfg (stepPre cfg a s).1 = true →
      (stepPre cfg a s).1.historyFileOpen = true →
      (step cfg a s).1 = some (none, 0, true, []) ∧
      (step cfg a s).2.historyFileOpen = false := by
  intro cfg a s hd hf
  constructor <;> simp [step, hd, hf]

/-- Witness for the amended C7: the first terminating step from a fresh
state under the always-done configuration returns the sentinel. -/
theorem c7_sentinel_amended_witness :
    (step cfgDone actNil s100k).1 = some (none, 0, true, []) ∧
    (step cfgDone actNil s100k).2.historyFileOpen = false :=
  c7_sentinel_amended cfgDone actNil s100k (by decide) (by decide)

/-- Claim C8: a sell of volume `v` against a holding with volume at least
`v` is fulfilled, decreases the holding's volume by exactly `v`, credits
`round(v * bid, 3)` to the available fund and sets the holding's
`sell_price` and last `price` to the bid; the holding stays in the
portfolio even at volume 0.  Concretely: from a fund of 100000, buying 10
shares at ask 50 and then selling 10 at bid 55 leaves
`available_fund = 100050` and the holding present with volume 0. -/
theorem c8_sell_semantics :
    (∀ (s : EnvState) (cid : ℕ) (p v : ℚ) (r : StockRecord),
      lookupPortfolio s.portfolios cid = some r → v ≤ r.volume →
      (sellStock s cid p v).1 = true ∧
      (sellStock s cid p v).2.availableFund = s.availableFund + pyRound (v * p) 3 ∧
      lookupPortfolio (sellStock s cid p v).2.portfolios cid
        = some { r with volume := r.volume - v, sell_price := p, price := p }) ∧
    ((buyStock s100k 1 50 10).2.availableFund = 99500 ∧
      lookupPortfolio (buyStock s100k 1 50 10).2.portfolios 1
        = some ⟨1, 10, 50, 0, 50⟩ ∧
      (sellStock (buyStock s100k 1 50 10).2 1 55 10).1 = true ∧
      (sellStock (buyStock s100k 1 50 10).2 1 55 10).2.availableFund = 100050 ∧
      lookupPortfolio (sellStock (buyStock s100k 1 50 10).2 1 55 10).2.portfolios 1
        = some ⟨1, 0, 50, 55, 55⟩) := by
  constructor
  · intro s cid p v r hr hv
    have hvol : r.volume ≥ v := hv
    refine ⟨?_, ?_, ?_⟩
    · simp [sellStock, hr, hvol]
    · simp [sellStock, hr, hvol]
    · have hq := lookupPortfolio_update s.portfolios cid
        { r with volume := r.volume - v, sell_price := p, price := p } r hr
      simpa [sellStock, hr, hvol] using hq
  · exact ⟨by decide, by decide, by decide, by decide, by decide⟩

/-- Witness for C8: the general sell clause applied to the concrete
holding bought at 50, sold at 55. -/
theorem c8_sell_semantics_witness :
    (sellStock (buyStock s100k 1 50 10).2 1 55 10).1 = true ∧
    (sellStock (buyStock s100k 1 50 10).2 1 55 10).2.availableFund
      = (buyStock s100k 1 50 10).2.availableFund + pyRound (10 * 55) 3 ∧
    lookupPortfolio (sellStock (buyStock s100k 1 50 10).2 1 55 10).2.portfolios 1
      = some ⟨1, 10 - 10, 50, 55, 55⟩ :=
  c8_sell_semantics.1 (buyStock s100k 1 50 10).2 1 55 10 ⟨1, 10, 50, 0, 50⟩
    (by decide) (by decide)

/-- Claim C9: for an order on a tradable company (present in the day's
simulation data with a published price triple), a buy executes exactly
when its limit price is at least the current synthetic ask — and then the
ledger is updated by `_buy_stock` at the ask price, never at the limit
price; a buy below the ask reaches the hold branch and changes no ledger
state.  Symmetrically a sell executes exactly when its limit is at most
the current bid, filling at the bid. -/
theorem c9_limit_price_gate :
    ∀ (s : EnvState) (f : Bool) (info : List (ℕ × InfoRec)) (o : AsxOrder)
      (p : PriceTriple),
      (s.simBatch.any fun kv => kv.1 == o.companyId) = true →
      lookupPrice s.simPrices o.companyId = some p →
      ((o.stockOperation = BUY_STOCK → o.price ≥ p.askPrice →
        applyAsxOrder (s, f, info) o
          = ((buyStock s o.companyId p.askPrice o.volume).2,
             (buyStock s o.companyId p.askPrice o.volume).1,
             info ++ [(o.companyId, ⟨TxAct.buyAct, p.bidPrice, o.volume,
               (buyStock s o.companyId p.askPrice o.volume).1⟩)])) ∧
       (o.stockOperation = BUY_STOCK → o.price < p.askPrice →
        applyAsxOrder (s, f, info) o
          = (s, f, info ++ [(o.companyId, ⟨TxAct.holdAct, p.price, -1, f⟩)])) ∧
       (o.stockOperation = SELL_STOCK → o.price ≤ p.bidPrice →
        applyAsxOrder (s, f, info) o
          = ((sellStock s o.companyId p.bidPrice o.volume).2,
             (sellStock s o.companyId p.bidPrice o.volume).1,
             info ++ [(o.companyId, ⟨TxAct.sellAct, p.bidPrice, o.volume,
               (sellStock s o.companyId p.bidPrice o.volume).1⟩)])) ∧
       (o.stockOperation = SELL_STOCK → p.bidPrice < o.price →
        applyAsxOrder (s, f, info) o
          = (s, f, info ++ [(o.companyId, ⟨TxAct.holdAct, p.price, -1, f⟩)]))) := by
  intro s f info o p hany hp
  refine ⟨?_, ?_, ?_, ?_⟩
  · intro hop hge
    simp [applyAsxOrder, hany, hp, hop, hge,
      BUY_STOCK, SELL_STOCK, TOP_UP_FUND, WITHDRAW_FUND]
  · intro hop hlt
    simp [applyAsxOrder, hany, hp, hop, not_le.mpr hlt,
      BUY_STOCK, SELL_STOCK, TOP_UP_FUND, WITHDRAW_FUND]
  · intro hop hle
    simp [applyAsxOrder, hany, hp, hop, hle,
      BUY_STOCK, SELL_STOCK, TOP_UP_FUND, WITHDRAW_FUND]
  · intro hop hlt
    simp [applyAsxOrder, hany, hp, hop, not_le.mpr hlt,
      BUY_STOCK, SELL_STOCK, TOP_UP_FUND, WITHDRAW_FUND]

/-- Witness for C9: a buy with limit 60 against ask 50 on the quoted
company executes at the ask price 50. -/
theorem c9_limit_price_gate_witness :
    applyAsxOrder (sQuoted, false, []) ⟨BUY_STOCK, 1, 60, 10⟩
      = ((buyStock sQuoted 1 50 10).2, (buyStock sQuoted 1 50 10).1,
         [] ++ [(1, ⟨TxAct.buyAct, 49, 10, (buyStock sQuoted 1 50 10).1⟩)]) :=
  (c9_limit_price_gate sQuoted false [] ⟨BUY_STOCK, 1, 60, 10⟩ ⟨50, 49, 49⟩
    (by decide) (by decide)).1 rfl (by decide)

theorem holdFlagsConsistent_append {b : Bool} {xs ys : List (ℕ × InfoRec)}
    (hx : holdFlagsConsistent b xs)
    (hy : holdFlagsConsistent (xs.foldl flagStep b) ys) :
    holdFlagsConsistent b (xs ++ ys) := by
  induction xs generalizing b with
  | nil => simpa using hy
  | cons kv t ih =>
      exact ⟨hx.1, ih hx.2 (by simpa using hy)⟩

theorem applyAsxOrder_delta (acc : EnvState × Bool × List (ℕ × InfoRec))
    (o : AsxOrder) :
    ∃ Δ : List (ℕ × InfoRec),
      (applyAsxOrder acc o).2.2 = acc.2.2 ++ Δ ∧
      holdFlagsConsistent acc.2.1 Δ ∧
      Δ.foldl flagStep acc.2.1 = (applyAsxOrder acc o).2.1 := by
  obtain ⟨s, f, info⟩ := acc
  by_cases hany : (s.simBatch.any fun kv => kv.1 == o.companyId) = true
  · rcases hp : lookupPrice s.simPrices o.companyId with _ | p
    · exact ⟨[], by simp [applyAsxOrder, hany, hp], trivial,
        by simp [applyAsxOrder, hany, hp]⟩
    · simp only [applyAsxOrder, hany, hp, if_true]
      split_ifs with h1 h2 h3 h4
      · exact ⟨[(o.companyId, ⟨TxAct.buyAct, p.bidPrice, o.volume,
            (buyStock s o.companyId p.askPrice o.volume).1⟩)],
          rfl, ⟨by simp, trivial⟩, rfl⟩
      · exact ⟨[(o.companyId, ⟨TxAct.sellAct, p.bidPrice, o.volume,
            (sellStock s o.companyId p.bidPrice o.volume).1⟩)],
          rfl, ⟨by simp, trivial⟩, rfl⟩
      · exact ⟨[], by simp, trivial, rfl⟩
      · exact ⟨[], by simp, trivial, rfl⟩
      · exact ⟨[(o.companyId, ⟨TxAct.holdAct, p.price, -1, f⟩)],
          rfl, ⟨fun _ => rfl, trivial⟩, rfl⟩
  · exact ⟨[], by simp [applyAsxOrder, hany], trivial,
      by simp [applyAsxOrder, hany]⟩

theorem applyOrders_delta (orders : List AsxOrder) :
    ∀ acc : EnvState × Bool × List (ℕ × InfoRec),
      ∃ Δ : List (ℕ × InfoRec),
        (orders.foldl applyAsxOrder acc).2.2 = acc.2.2 ++ Δ ∧
        holdFlagsConsistent acc.2.1 Δ ∧
        Δ.foldl flagStep acc.2.1 = (orders.foldl applyAsxOrder acc).2.1 := by
  induction orders with
  | nil => exact fun acc => ⟨[], by simp, trivial, rfl⟩
  | cons o os ih =>
      intro acc
      obtain ⟨d0, h0, c0, f0⟩ := applyAsxOrder_delta acc o
      obtain ⟨d1, h1, c1, f1⟩ := ih (applyAsxOrder acc o)
      refine ⟨d0 ++ d1, ?_, ?_, ?_⟩
      · rw [List.foldl_cons, h1, h0, List.append_assoc]
      · exact holdFlagsConsistent_append c0 (by rw [f0]; exact c1)
      · rw [List.foldl_append, f0, f1, List.foldl_cons]

/-- Claim C10: in the info transcript produced by `_apply_asx_action` for
any batch, every record written by the hold branch (a hold operation, or
a buy/sell that failed the limit-price gate) carries as its `fulfilled`
flag the result of the most recent buy or sell record written earlier in
the same batch, and `False` when no buy or sell preceded it — it never
describes the hold order itself. -/
theorem c10_hold_record_stale_flag :
    ∀ (a : AsxAction) (s : EnvState),
      holdFlagsConsistent false (applyAsxAction a s).1.2.2 := by
  intro a s
  obtain ⟨d, h, c, _⟩ := applyOrders_delta a.orders (s, false, [])
  have hd : (applyAsxAction a s).1.2.2 = d := by
    simpa [applyAsxAction] using h
  rw [hd]
  exact c

/-- Witness for C10 on a concrete batch: a fulfilled buy followed by a
gate-failing buy whose hold record repeats the earlier buy's result. -/
theorem c10_hold_record_stale_flag_witness :
    holdFlagsConsistent false (applyAsxAction batchBuyThenGated sQuoted).1.2.2 :=
  c10_hold_record_stale_flag batchBuyThenGated sQuoted

end ClaimVerification
